import Mathlib

/-
Verification of the transaction builder and validator of aepp-sdk-js.

The definitions below are a shallow embedding of:
  - src/tx/builder/index.ts  (serializeField, deserializeField, validateField,
    validateParams, unpackRawTx, buildTx, unpackTx),
  - src/tx/validator.ts      (the signature / TTL / balance / nonce validators
    and the fresh-account defaulting of verifyTransaction),
  - src/tx/index.ts          (the nonce resolver of _buildTx).

Collaborators that the repository imports but does not implement (the rlp
package, the base64check encoder, the ed25519 verify / hash primitives, and
the byte helpers of utils/bytes.ts) are modelled symbolically: RLP and the
checksummed string encoding as invertible constructor/destructor pairs, and
signatures as records carrying the exact message they sign.  The schema
registry table (tx/builder/schema.ts) and the integer field codec
(tx/builder/field-types) are not present under src/ and are modelled from
the spec where noted.
-/

/-- Byte sequences are lists of naturals (each entry standing for one byte). -/
abbrev Bytes := List Nat

/-- Fuel-driven big-endian byte expansion of a natural number (the fuel makes
the recursion structural; `natToBytes` supplies enough fuel). -/
def natToBytesAux : Nat → Nat → Bytes
  | 0, _ => []
  | _ + 1, 0 => []
  | fuel + 1, n + 1 => natToBytesAux fuel ((n + 1) / 256) ++ [(n + 1) % 256]

/-- Modelled from the spec: the fixed-width-integer field codec serializes a
number as its minimal big-endian byte run (tx/builder/field-types is not under
src/); `toBytes` of utils/bytes.ts behaves the same on numbers. -/
def natToBytes (n : Nat) : Bytes := natToBytesAux n n

/-- readInt of tx/builder/helpers.ts: interpret a byte buffer as a big-endian
natural number. -/
def readInt (bs : Bytes) : Nat := bs.foldl (fun acc b => acc * 256 + b) 0

/-- toBytes of utils/bytes.ts applied to a string: the sequence of its code
points (the UTF-8 collaborator is modelled at code-point granularity). -/
def strToBytes (s : String) : Bytes := s.data.map Char.toNat

/-- Buffer.toString: rebuild a string from its code points. -/
def bytesToStr (bs : Bytes) : String := ⟨bs.map Char.ofNat⟩

/-- The checksummed string prefixes used by the encoder collaborator
(utils/encoder.ts): transactions, account addresses, bytearrays, commitments,
contracts, contract bytearrays. -/
inductive Encoding
  | tx
  | ak
  | ba
  | cm
  | ct
  | cb
deriving DecidableEq

/-- The field-type variants whose serialize/deserialize branches appear in
src/tx/builder/index.ts, plus the fixed-width integer variant (`shortUInt`)
modelled from the spec because tx/builder/field-types is not under src/. -/
inductive FieldType
  | bool
  | binary
  | string
  | payload
  | ctVersion
  | shortUInt
deriving DecidableEq

/-- Field values: booleans, integers, plain strings, checksummed prefixed
strings (an `Encoding` together with the decoded bytes), and vm/abi version
pairs. -/
inductive Val
  | vBool (b : Bool)
  | vInt (n : Nat)
  | vStr (s : String)
  | vEnc (e : Encoding) (bs : Bytes)
  | vCt (vm abi : Nat)
deriving DecidableEq

/-- One schema entry: field name, field type, optional string-encoding used
when deserializing binary fields. -/
abbrev TxField := String × FieldType × Option Encoding

/-- A transaction parameter object: an insertion-ordered key/value record. -/
abbrev Params := List (String × Val)

/-- Modelled from the spec: the process-wide schema registry of
tx/builder/schema.ts maps a numeric tag to its versioned field lists. -/
abbrev Registry := List (Nat × List (Nat × List TxField))

/-- The error taxonomy of utils/errors.ts that the builder and unpacker throw
(`typeError` stands for the JavaScript TypeError raised when an unregistered
tag is passed to buildTx and `Object.keys` is applied to `undefined`). -/
inductive TxError
  | schemaNotFound (side : String) (key : String) (v : Nat)
  | decodeError (msg : String)
  | argumentError (argumentName : String) (expected : Nat) (actual : Nat)
  | invalidTxParams (errs : List (String × String))
  | typeError
deriving DecidableEq

/-- serializeField of src/tx/builder/index.ts.  A `none` result models the
JavaScript `undefined` (absent input on a plain number type), which buildTx
filters out of the binary list.  The `params`/`rebuildTx` context argument is
unused by the modelled variants and omitted. -/
def serializeField : Option Val → FieldType → Option Bytes
  | some (.vBool b), .bool => some [if b then 1 else 0]
  | some (.vEnc _ bs), .binary => some bs
  | some (.vStr s), .string => some (strToBytes s)
  | some (.vEnc .ba bs), .payload => some bs
  | some (.vStr s), .payload => some (strToBytes s)
  | some (.vCt vm abi), .ctVersion => some (natToBytes vm ++ [0] ++ natToBytes abi)
  | some (.vInt n), .shortUInt => some (natToBytes n)
  | _, _ => none

/-- deserializeField of src/tx/builder/index.ts.  RLP-decoded elements are
never null, so the leading null guard of the source is unreachable here.  For
ctVersion the source destructures `[vm, , abi]`, reading bytes 0 and 2. -/
def deserializeField (value : Bytes) (ty : FieldType) (pfx : Option Encoding) : Val :=
  match ty with
  | .bool => .vBool (value.getD 0 0 == 1)
  | .binary => .vEnc (pfx.getD .ba) value
  | .string => .vStr (bytesToStr value)
  | .payload => .vEnc .ba value
  | .ctVersion => .vCt (readInt [value.getD 0 0]) (readInt [value.getD 2 0])
  | .shortUInt => .vInt (readInt value)

/-- Message produced by validateField for an invalid vm/abi pair. -/
def ctVersionMessage : String :=
  "Value must be an object with \"vmVersion\" and \"abiVersion\" fields"

/-- validateField of src/tx/builder/index.ts: absent values fail with
"Field is required"; a ctVersion value needs truthy (nonzero) vmVersion and
abiVersion; every other present value passes. -/
def validateField : Option Val → FieldType → Option String
  | none, _ => some "Field is required"
  | some v, .ctVersion =>
    match v with
    | .vCt vm abi => if vm ≠ 0 ∧ abi ≠ 0 then none else some ctVersionMessage
    | _ => some ctVersionMessage
  | some _, _ => none

/-- The optionalFields allow-list of validateParams
(src/tx/builder/index.ts line 153): seven field names exempt from the
required-field default. -/
def optionalFields : List String :=
  ["payload", "nameFee", "deposit", "gasPrice", "fee", "gasLimit", "amount"]

/-- validateParams of src/tx/builder/index.ts: validate every schema field
not excluded and not in the allow-list, keeping the failing entries. -/
def validateParams (params : Params) (schema : List TxField)
    (excludeKeys : List String) : List (String × String) :=
  (schema.filter fun f => !excludeKeys.contains f.1 && !optionalFields.contains f.1).filterMap
    fun f => (validateField (List.lookup f.1 params) f.2.1).map fun m => (f.1, m)

/-- unpackRawTx of src/tx/builder/index.ts: reject a binary list whose length
differs from the schema length with ArgumentError, otherwise deserialize
field by field in schema order. -/
def unpackRawTx (binary : List Bytes) (schema : List TxField) : Except TxError Params :=
  if binary.length ≠ schema.length then
    .error (.argumentError "Transaction RLP length" schema.length binary.length)
  else
    .ok (List.zipWith (fun (f : TxField) b => (f.1, deserializeField b f.2.1 f.2.2)) schema binary)

/-- JavaScript property assignment on a record: overwrite the first occurrence
in place, or append a fresh key at the end. -/
def setParam : Params → String → Val → Params
  | [], k, v => [(k, v)]
  | (k', v') :: rest, k, v =>
    if k' = k then (k, v) :: rest else (k', v') :: setParam rest k v

/-- The three assignments buildTx performs on the caller's params object:
`params.VSN = vsn; params.tag = type; params.denomination = denomination`. -/
def stampParams (p : Params) (tag vsn : Nat) (denomination : String) : Params :=
  setParam (setParam (setParam p "VSN" (.vInt vsn)) "tag" (.vInt tag))
    "denomination" (.vStr denomination)

/-- Options of buildTx with their defaults (excludeKeys, output encoding,
version, denomination). -/
structure BuildOpts where
  excludeKeys : List String := []
  outEncoding : Encoding := .tx
  vsn : Option Nat := none
  denomination : String := "aettos"

/-- The checksummed prefixed string for a transaction, modelled as the
encoding together with the RLP item list it encodes (encode, rlpEncode and
their inverses are collaborator bijections). -/
structure EncodedTx where
  enc : Encoding
  payload : List Bytes
deriving DecidableEq

/-- Result record of buildTx (BuiltTx of src/tx/builder/index.ts). -/
structure BuiltTx where
  tx : EncodedTx
  rlpEncoded : List Bytes
  binary : List Bytes
  txObject : Params
deriving DecidableEq

/-- Largest version key of a registry entry
(`Math.max(...Object.keys(schemas).map((a) => +a))`). -/
def maxKey (l : List (Nat × List TxField)) : Nat :=
  l.foldl (fun m p => max m p.1) 0

/-- Serialization of the non-excluded schema fields: map serializeField over
the params and drop `undefined` results, as buildTx does. -/
def serializeFields (schema : List TxField) (p : Params) : List Bytes :=
  schema.filterMap fun f => serializeField (List.lookup f.1 p) f.2.1

/-- buildTx of src/tx/builder/index.ts.  The second component of the result
is the caller's params object as it stands after the call, recording the
in-place mutation performed by the source. -/
def buildTx (reg : Registry) (inParams : Params) (tag : Nat) (o : BuildOpts) :
    Except TxError BuiltTx × Params :=
  match List.lookup tag reg with
  | none => (.error .typeError, inParams)
  | some schemas =>
    let vsn := o.vsn.getD (maxKey schemas)
    match List.lookup vsn schemas with
    | none => (.error (.schemaNotFound "serialization" (toString tag) vsn), inParams)
    | some schema =>
      let params := stampParams inParams tag vsn o.denomination
      let filteredSchema := schema.filter fun f => !o.excludeKeys.contains f.1
      let errs := validateParams params schema o.excludeKeys
      if errs ≠ [] then (.error (.invalidTxParams errs), params)
      else
        let binary := serializeFields filteredSchema params
        match unpackRawTx binary schema with
        | .error e => (.error e, params)
        | .ok txObject =>
          (.ok { tx := { enc := o.outEncoding, payload := binary }, rlpEncoded := binary,
                 binary := binary, txObject := txObject }, params)

/-- Result record of unpackTx (TxUnpacked of src/tx/builder/index.ts). -/
structure TxUnpackedR where
  tx : Params
  rlpEncoded : List Bytes
deriving DecidableEq

/-- unpackTx of src/tx/builder/index.ts: decode, RLP-decode, read tag and
version, resolve the schema, then deserialize.  An unknown tag raises
DecodeError; a known tag with an unknown version raises SchemaNotFoundError;
an expected-tag mismatch raises DecodeError.  A payload with fewer than two
elements crashes in the source (readInt of undefined) and is mapped to
`typeError`. -/
def unpackTx (reg : Registry) (encodedTx : EncodedTx) (txType : Option Nat) :
    Except TxError TxUnpackedR :=
  match encodedTx.payload with
  | b0 :: b1 :: rest =>
    let objId := readInt b0
    match List.lookup objId reg with
    | none => .error (.decodeError ("Unknown transaction tag: " ++ toString objId))
    | some schemas =>
      if txType.getD objId ≠ objId then
        .error (.decodeError ("Expected transaction to have " ++ toString (txType.getD objId)
          ++ " tag, got " ++ toString objId ++ " instead"))
      else
        let vsn := readInt b1
        match List.lookup vsn schemas with
        | none => .error (.schemaNotFound "deserialization" ("tag " ++ toString objId) vsn)
        | some schema =>
          (unpackRawTx (b0 :: b1 :: rest) schema).map
            fun u => { tx := u, rlpEncoded := b0 :: b1 :: rest }
  | _ => .error .typeError

/- Numeric transaction type tags (tx/builder/constants.ts, not under src/;
values modelled from the aeternity protocol constants named in the spec). -/
namespace Tag

def SignedTx : Nat := 11

def SpendTx : Nat := 12

def NamePreclaimTx : Nat := 33

def ContractCallTx : Nat := 43

def GaMetaTx : Nat := 59

def PayingForTx : Nat := 80

end Tag

/-- Modelled from the spec: the SpendTx version-1 schema (tag, version,
sender, recipient, amount, fee, ttl, nonce, payload), the value-transfer
field list named by the end-to-end property of the spec. -/
def spendSchema : List TxField :=
  [("tag", .shortUInt, none), ("VSN", .shortUInt, none),
   ("senderId", .binary, some .ak), ("recipientId", .binary, some .ak),
   ("amount", .shortUInt, none), ("fee", .shortUInt, none),
   ("ttl", .shortUInt, none), ("nonce", .shortUInt, none),
   ("payload", .payload, some .ba)]

/-- Modelled from the spec: the NamePreclaimTx version-1 schema. -/
def namePreclaimSchema : List TxField :=
  [("tag", .shortUInt, none), ("VSN", .shortUInt, none),
   ("accountId", .binary, some .ak), ("nonce", .shortUInt, none),
   ("commitmentId", .binary, some .cm), ("fee", .shortUInt, none),
   ("ttl", .shortUInt, none)]

/-- Modelled from the spec: the schema registry (TX_SCHEMA of
tx/builder/schema.ts is not under src/), holding the two spec-named plain
transaction types used as concrete instances. -/
def TX_SCHEMA : Registry :=
  [(Tag.SpendTx, [(1, spendSchema)]),
   (Tag.NamePreclaimTx, [(1, namePreclaimSchema)])]

/-- Typing discipline a value must satisfy for its schema field: the value
variant matches the field type, binary values carry the schema's encoding,
and vm/abi components are truthy single bytes. -/
def typeOk : Val → FieldType → Option Encoding → Bool
  | .vBool _, .bool, _ => true
  | .vInt _, .shortUInt, _ => true
  | .vStr _, .string, _ => true
  | .vEnc e _, .binary, some p => e == p
  | .vStr _, .payload, _ => true
  | .vEnc .ba _, .payload, _ => true
  | .vCt vm abi, .ctVersion, _ => decide (0 < vm) && decide (vm ≤ 255)
      && decide (0 < abi) && decide (abi ≤ 255)
  | _, _, _ => false

/-- A params record is well typed for a schema field when the field is
present and its value satisfies `typeOk`. -/
def wellTyped (p : Params) (f : TxField) : Bool :=
  match List.lookup f.1 p with
  | none => false
  | some v => typeOk v f.2.1 f.2.2

/-- Normalization performed by a build/unpack round trip: a plain-string
payload comes back in its checksummed bytearray form; every other well-typed
value is returned unchanged. -/
def normVal (ty : FieldType) (v : Val) : Val :=
  match ty, v with
  | .payload, .vStr s => .vEnc .ba (strToBytes s)
  | _, _ => v

/-- The normalized field map a round trip yields: one entry per schema field,
in schema order, carrying the normalized value. -/
def normalizeParams (schema : List TxField) (p : Params) : Params :=
  schema.map fun f => (f.1, normVal f.2.1 ((List.lookup f.1 p).getD (.vInt 0)))

/-- Symbolic signing payloads of the signature validator
(src/tx/validator.ts lines 123-128): the network-id prefix concatenated with
either the raw transaction bytes or their hash.  The two constructors keep
the forms apart, standing in for the injective byte concatenations. -/
inductive SignData
  | raw (pfx : String) (txBody : List Bytes)
  | hashed (pfx : String) (txBody : List Bytes)
deriving DecidableEq

/-- Symbolic ed25519 signature (the crypto collaborator of utils/crypto.ts):
a record of the exact payload it signs and the signing key. -/
structure Sig where
  signedData : SignData
  signer : String
deriving DecidableEq

/-- verify of utils/crypto.ts, in the symbolic signature model: a signature
checks out against a payload and a public key exactly when it was made over
that payload by that key. -/
def verify (data : SignData) (sig : Sig) (pk : String) : Bool :=
  sig.signedData == data && sig.signer == pk

/-- Account kinds reported by the node (basic key-pair accounts and
contract-controlled generalized accounts). -/
inductive AccountKind
  | basic
  | generalized
deriving DecidableEq

/-- Account snapshot used by the validators; `kind` is optional because the
fresh-account default of verifyTransaction carries no kind. -/
structure AccountInfo where
  id : String
  balance : Nat
  nonce : Nat
  kind : Option AccountKind
deriving DecidableEq

/-- The part of an unpacked inner transaction the signature validator reads:
its raw RLP bytes. -/
structure EncodedTxView where
  rlpEncoded : List Bytes
deriving DecidableEq

/-- Innermost parameter record reached by the balance validator through
`tx.tx.encodedTx.tx.fee`: the wrapped transaction's fee. -/
structure FeeHolder where
  fee : Int
deriving DecidableEq

/-- The unpacked transaction stored under `encodedTx` of a SignedTx. -/
structure EncodedInner where
  tx : FeeHolder
deriving DecidableEq

/-- The SignedTx parameter record wrapped inside a PayingForTx `tx` field. -/
structure SignedTxParams where
  encodedTx : EncodedInner
deriving DecidableEq

/-- The unpacked SignedTx carried by a PayingForTx under its `tx` field. -/
structure SignedTxUnpacked where
  tx : SignedTxParams
deriving DecidableEq

/-- The destructured transaction parameters a validator receives
(src/tx/validator.ts lines 26-41); every field is optional because a given
transaction type carries only some of them. -/
structure ValTx where
  encodedTx : Option EncodedTxView := none
  signatures : Option (List Sig) := none
  tx : Option SignedTxUnpacked := none
  nonce : Option Nat := none
  ttl : Option Nat := none
  amount : Option Int := none
  fee : Option Int := none
  nameFee : Option Int := none
deriving DecidableEq

/-- The options record a validator receives (account snapshot, network id,
parent transaction tags, own tag, current height). -/
structure VOptions where
  account : Option AccountInfo := none
  nodeNetworkId : String := ""
  parentTxTypes : List Nat := []
  txType : Nat := 0
  height : Nat := 0
deriving DecidableEq

/-- ValidatorResult of src/tx/validator.ts. -/
structure ValidatorResult where
  message : String
  key : String
  checkedKeys : List String
deriving DecidableEq

/-- The InvalidSignature finding, verbatim from src/tx/validator.ts. -/
def invalidSignatureResult : ValidatorResult :=
  { message := "Signature cannot be verified, please ensure that you transaction have"
      ++ " the correct prefix and the correct private key for the sender address",
    key := "InvalidSignature", checkedKeys := ["encodedTx", "signatures"] }

/-- The signature validator (src/tx/validator.ts lines 118-137): skip when
the transaction has neither an encodedTx nor a signatures field, when the
sender account is unknown, or when it does not carry exactly one signature;
otherwise accept if the signature verifies against the network-id-prefixed
bytes or the prefixed hash of the bytes, with an `inner_tx` marker joined to
the prefix under a PayingForTx parent. -/
def signatureValidator (vt : ValTx) (o : VOptions) : List ValidatorResult :=
  if vt.encodedTx.isNone && vt.signatures.isNone then []
  else
    match o.account with
    | none => []
    | some account =>
      match vt.signatures.getD [] with
      | [s] =>
        let pfx := if o.parentTxTypes.contains Tag.PayingForTx
          then o.nodeNetworkId ++ "-inner_tx" else o.nodeNetworkId
        let body := (vt.encodedTx.getD { rlpEncoded := [] }).rlpEncoded
        if verify (.raw pfx body) s account.id || verify (.hashed pfx body) s account.id
        then [] else [invalidSignatureResult]
      | _ => []

/-- The TTL validator (src/tx/validator.ts lines 146-155): no finding without
a ttl field, for an unbounded (zero) ttl, or while the ttl has not passed the
current height. -/
def ttlValidator (vt : ValTx) (o : VOptions) : List ValidatorResult :=
  match vt.ttl with
  | none => []
  | some ttl =>
    if ttl == 0 || ttl ≥ o.height then []
    else [{ message := "TTL " ++ toString ttl ++ " is already expired, current height is "
              ++ toString o.height,
            key := "ExpiredTTL", checkedKeys := ["ttl"] }]

/-- The inner fee read by the balance validator through
`tx.tx.encodedTx.tx.fee` (zero when no wrapped transaction is present; the
source would crash there, and the balance theorem assumes presence). -/
def innerFee (vt : ValTx) : Int :=
  match vt.tx with
  | some u => u.tx.encodedTx.tx.fee
  | none => 0

/-- The balance validator (src/tx/validator.ts lines 156-171): cost is
fee + nameFee + amount, plus the wrapped transaction's fee on a PayingForTx,
minus the own fee under a PayingForTx parent; flag InsufficientBalance when
the cost exceeds the account balance. -/
def balanceValidator (vt : ValTx) (o : VOptions) : List ValidatorResult :=
  match o.account with
  | none => []
  | some account =>
    if vt.amount.isNone && vt.fee.isNone && vt.nameFee.isNone then []
    else
      let fee := vt.fee.getD 0
      let cost : Int := fee + vt.nameFee.getD 0 + vt.amount.getD 0
        + (if o.txType == Tag.PayingForTx then innerFee vt else 0)
        - (if o.parentTxTypes.contains Tag.PayingForTx then fee else 0)
      if cost ≤ (account.balance : Int) then []
      else [{ message := "Account balance " ++ toString account.balance
                ++ " is not enough to execute the transaction that costs " ++ toString cost,
              key := "InsufficientBalance", checkedKeys := ["amount", "fee", "nameFee"] }]

/-- The nonce validator (src/tx/validator.ts lines 184-201): skipped without
a nonce, without an account, or under a GaMetaTx parent; otherwise compare
against account.nonce + 1. -/
def nonceValidator (vt : ValTx) (o : VOptions) : List ValidatorResult :=
  match vt.nonce, o.account with
  | some nonce, some account =>
    if o.parentTxTypes.contains Tag.GaMetaTx then []
    else
      let validNonce := account.nonce + 1
      if nonce == validNonce then []
      else if nonce < validNonce then
        [{ message := "Nonce " ++ toString nonce ++ " is already used, valid nonce is "
             ++ toString validNonce,
           key := "NonceAlreadyUsed", checkedKeys := ["nonce"] }]
      else
        [{ message := "Nonce " ++ toString nonce ++ " is too high, valid nonce is "
             ++ toString validNonce,
           key := "NonceHigh", checkedKeys := ["nonce"] }]
  | _, _ => []

/-- Errors an account query can fail with. -/
inductive LookupError
  | accountNotFound
  | other (msg : String)
deriving DecidableEq

/-- Modelled from the spec: isAccountNotFoundError of utils/other.ts (not
under src/) recognizes the node's account-not-found rejection among query
errors. -/
def isAccountNotFoundError : LookupError → Bool
  | .accountNotFound => true
  | .other _ => false

/-- The implicit fresh-account baseline of verifyTransaction:
`{ id: address, balance: 0n, nonce: 0 }` (no kind field). -/
def freshAccount (address : String) : AccountInfo :=
  { id := address, balance := 0, nonce := 0, kind := none }

/-- The account resolution of verifyTransaction (src/tx/validator.ts lines
94-106): an account-not-found failure is replaced by the fresh-account
baseline, every other failure propagates. -/
def resolveAccount (address : String) (result : Except LookupError AccountInfo) :
    Except LookupError AccountInfo :=
  match result with
  | .ok a => .ok a
  | .error e => if isAccountNotFoundError e then .ok (freshAccount address) else .error e

/-- The nonce defaulting of _buildTx (src/tx/index.ts lines 340-345): keep a
caller-supplied nonce; otherwise use the node's next nonce, defaulting to 1
when the account does not exist yet and propagating any other failure. -/
def resolveNonce (nonce : Option Nat) (queryResult : Except LookupError Nat) :
    Except LookupError Nat :=
  match nonce with
  | some n => .ok n
  | none =>
    match queryResult with
    | .ok n => .ok n
    | .error e => if isAccountNotFoundError e then .ok 1 else .error e

theorem readInt_append (xs : Bytes) (b : Nat) :
    readInt (xs ++ [b]) = readInt xs * 256 + b := by
  simp [readInt, List.foldl_append]

theorem readInt_natToBytesAux :
    ∀ fuel n, n ≤ fuel → readInt (natToBytesAux fuel n) = n := by
  intro fuel
  induction fuel with
  | zero =>
    intro n h
    obtain rfl : n = 0 := Nat.le_zero.mp h
    rfl
  | succ f ih =>
    intro n h
    match n with
    | 0 => rfl
    | m + 1 =>
      have hdiv : (m + 1) / 256 ≤ f := by
        have := Nat.div_lt_self (Nat.succ_pos m) (by norm_num : 1 < 256)
        omega
      calc readInt (natToBytesAux (f + 1) (m + 1))
          = readInt (natToBytesAux f ((m + 1) / 256) ++ [(m + 1) % 256]) := rfl
        _ = readInt (natToBytesAux f ((m + 1) / 256)) * 256 + (m + 1) % 256 :=
            readInt_append _ _
        _ = (m + 1) / 256 * 256 + (m + 1) % 256 := by rw [ih _ hdiv]
        _ = m + 1 := by omega

/-- Round trip of the integer field codec: readInt inverts natToBytes. -/
theorem readInt_natToBytes (n : Nat) : readInt (natToBytes n) = n :=
  readInt_natToBytesAux n n (Nat.le_refl n)

theorem readInt_singleton (b : Nat) : readInt [b] = b := by
  simp [readInt]

theorem natToBytes_single (n : Nat) (h1 : 0 < n) (h2 : n ≤ 255) :
    natToBytes n = [n] := by
  match n, h1 with
  | m + 1, _ =>
    have h256 : m + 1 < 256 := by omega
    show natToBytesAux m ((m + 1) / 256) ++ [(m + 1) % 256] = [m + 1]
    rw [Nat.div_eq_of_lt h256, Nat.mod_eq_of_lt h256]
    cases m <;> rfl

/-- Round trip of the string field codec. -/
theorem bytesToStr_strToBytes (s : String) : bytesToStr (strToBytes s) = s := by
  cases s with
  | mk data =>
    simp [bytesToStr, strToBytes, List.map_map, Function.comp_def, Char.ofNat_toNat]

theorem lookup_setParam_self (p : Params) (k : String) (v : Val) :
    List.lookup k (setParam p k v) = some v := by
  induction p with
  | nil => simp [setParam, List.lookup]
  | cons hd t ih =>
    obtain ⟨k0, v0⟩ := hd
    by_cases hk : k0 = k
    · subst hk; simp [setParam, List.lookup]
    · have hkk : (k == k0) = false := by simp [Ne.symm hk]
      simp [setParam, hk, List.lookup, hkk, ih]

theorem lookup_setParam_ne (p : Params) (k k' : String) (v : Val) (h : k' ≠ k) :
    List.lookup k' (setParam p k v) = List.lookup k' p := by
  have hkk : (k' == k) = false := by simp [h]
  induction p with
  | nil => simp [setParam, List.lookup, hkk]
  | cons hd t ih =>
    obtain ⟨k0, v0⟩ := hd
    by_cases hk : k0 = k
    · subst hk; simp [setParam, List.lookup, hkk]
    · by_cases hk' : k' = k0
      · subst hk'; simp [setParam, hk, List.lookup]
      · have hkk0 : (k' == k0) = false := by simp [hk']
        simp [setParam, hk, List.lookup, hkk0, ih]

theorem validateField_of_typeOk (v : Val) (ty : FieldType) (pfx : Option Encoding)
    (h : typeOk v ty pfx = true) : validateField (some v) ty = none := by
  cases ty <;> cases v <;> simp_all [typeOk, validateField]
  omega

/-- Per-field round trip: a well-typed value serializes to bytes that
deserialize back to its normalized form. -/
theorem serialize_deserialize_field (v : Val) (ty : FieldType) (pfx : Option Encoding)
    (h : typeOk v ty pfx = true) :
    ∃ bs, serializeField (some v) ty = some bs ∧
      deserializeField bs ty pfx = normVal ty v := by
  cases ty with
  | bool =>
    cases v <;> simp_all [typeOk]
    case vBool b =>
      refine ⟨_, rfl, ?_⟩
      cases b <;> rfl
  | binary =>
    cases v <;> simp_all [typeOk]
    case vEnc e bs =>
      cases pfx with
      | none => simp [typeOk] at h
      | some p =>
        simp only [typeOk, beq_iff_eq] at h
        subst h
        exact ⟨bs, by simp [serializeField], by simp [deserializeField, normVal]⟩
  | string =>
    cases v <;> simp_all [typeOk]
    case vStr s =>
      exact ⟨_, rfl, by simp [deserializeField, normVal, bytesToStr_strToBytes]⟩
  | payload =>
    cases v <;> simp_all [typeOk]
    case vStr s => exact ⟨_, rfl, rfl⟩
    case vEnc e bs =>
      cases e <;> simp_all [typeOk]
      exact ⟨bs, rfl, rfl⟩
  | ctVersion =>
    cases v <;> simp_all [typeOk]
    case vCt vm abi =>
      obtain ⟨⟨⟨h1, h2⟩, h3⟩, h4⟩ := h
      refine ⟨_, rfl, ?_⟩
      rw [natToBytes_single vm h1 h2, natToBytes_single abi h3 h4]
      simp [deserializeField, normVal, readInt_singleton]
  | shortUInt =>
    cases v <;> simp_all [typeOk]
    case vInt n =>
      exact ⟨_, rfl, by simp [deserializeField, normVal, readInt_natToBytes]⟩

/-- Serializing a well-typed field list loses nothing and deserializes back
to the normalized field map, entry by entry. -/
theorem serializeFields_spec (fields : List TxField) (p : Params)
    (h : ∀ f ∈ fields, wellTyped p f = true) :
    (serializeFields fields p).length = fields.length ∧
    List.zipWith (fun (f : TxField) b => (f.1, deserializeField b f.2.1 f.2.2)) fields
      (serializeFields fields p) = normalizeParams fields p := by
  induction fields with
  | nil => simp [serializeFields, normalizeParams]
  | cons f fs ih =>
    have hf := h f (List.mem_cons_self _ _)
    have hrest : ∀ g ∈ fs, wellTyped p g = true := fun g hg => h g (List.mem_cons_of_mem _ hg)
    obtain ⟨hl, hz⟩ := ih hrest
    cases hlk : List.lookup f.1 p with
    | none =>
      simp only [wellTyped, hlk] at hf
      exact absurd hf (by simp)
    | some v =>
      simp only [wellTyped, hlk] at hf
      obtain ⟨bs, hser, hdes⟩ := serialize_deserialize_field v f.2.1 f.2.2 hf
      constructor
      · simp only [serializeFields, List.filterMap_cons, hlk, hser, List.length_cons]
        simp only [serializeFields] at hl
        omega
      · simp only [serializeFields, List.filterMap_cons, hlk, hser]
        simp only [List.zipWith_cons_cons, normalizeParams, List.map_cons, List.cons.injEq]
        refine ⟨?_, ?_⟩
        · simp [hlk, hdes]
        · simpa [serializeFields, normalizeParams] using hz

/-- Characterization of validateParams: no validation errors exactly when
every schema field that is neither excluded nor on the allow-list validates
against the supplied params. -/
theorem validateParams_nil_iff (q : Params) (sch : List TxField) (ek : List String) :
    validateParams q sch ek = [] ↔
      sch.all (fun f => ek.contains f.1 || optionalFields.contains f.1
        || (validateField (List.lookup f.1 q) f.2.1).isNone) = true := by
  induction sch with
  | nil => simp [validateParams]
  | cons f fs ih =>
    unfold validateParams at ih ⊢
    rw [List.filter_cons]
    by_cases h1 : ek.contains f.1 = true
    · rw [if_neg (by rw [h1]; simp), List.all_cons]
      simp only [h1, Bool.true_or, Bool.true_and]
      exact ih
    · have h1f : ek.contains f.1 = false := Bool.eq_false_iff.mpr h1
      by_cases h2 : optionalFields.contains f.1 = true
      · rw [if_neg (by rw [h1f, h2]; simp), List.all_cons]
        simp only [h2, Bool.or_true, Bool.true_or, Bool.true_and]
        exact ih
      · have h2f : optionalFields.contains f.1 = false := Bool.eq_false_iff.mpr h2
        rw [if_pos (by rw [h1f, h2f]; simp), List.filterMap_cons, List.all_cons]
        cases hvf : validateField (List.lookup f.1 q) f.2.1 with
        | none =>
          simp only [hvf, Option.map_none', Option.isNone_none, Bool.or_true, Bool.true_and]
          exact ih
        | some m =>
          simp only [hvf, Option.map_some', Option.isNone_some, h1f, h2f,
            Bool.or_false, Bool.false_or, Bool.false_and, List.all_cons]
          constructor
          · intro hc; exact absurd hc (by simp)
          · intro hc; exact absurd hc (by simp)

/-- C1.  Round trip: building a transaction for a registered (tag, version)
pair from a field assignment that is well typed for the resolved schema
succeeds, and unpacking the encoded result yields exactly the normalized
field map with tag and version stamped in. -/
theorem buildTx_unpackTx_roundTrip (reg : Registry) (p : Params) (t v : Nat)
    (vers : List (Nat × List TxField)) (rest : List TxField) (o : BuildOpts)
    (hreg : List.lookup t reg = some vers)
    (hvsn : o.vsn.getD (maxKey vers) = v)
    (hvv : List.lookup v vers = some
      (("tag", .shortUInt, none) :: ("VSN", .shortUInt, none) :: rest))
    (hexcl : o.excludeKeys = [])
    (hwt : ∀ f ∈ rest, wellTyped (stampParams p t v o.denomination) f = true) :
    ((buildTx reg p t o).1).map (fun b => unpackTx reg b.tx none) =
      .ok (.ok { tx := normalizeParams
                   (("tag", .shortUInt, none) :: ("VSN", .shortUInt, none) :: rest)
                   (stampParams p t v o.denomination),
                 rlpEncoded := natToBytes t :: natToBytes v ::
                   serializeFields rest (stampParams p t v o.denomination) }) := by
  set schema : List TxField :=
    ("tag", .shortUInt, none) :: ("VSN", .shortUInt, none) :: rest with hschema
  set stamped : Params := stampParams p t v o.denomination with hstamped
  have hTag : List.lookup "tag" stamped = some (.vInt t) := by
    rw [hstamped]
    unfold stampParams
    rw [lookup_setParam_ne _ _ _ _ (by decide)]
    exact lookup_setParam_self _ _ _
  have hVSN : List.lookup "VSN" stamped = some (.vInt v) := by
    rw [hstamped]
    unfold stampParams
    rw [lookup_setParam_ne _ _ _ _ (by decide), lookup_setParam_ne _ _ _ _ (by decide)]
    exact lookup_setParam_self _ _ _
  have hwtAll : ∀ f ∈ schema, wellTyped stamped f = true := by
    intro f hf
    rcases List.mem_cons.mp hf with rfl | hf'
    · simp [wellTyped, hTag, typeOk]
    rcases List.mem_cons.mp hf' with rfl | hf''
    · simp [wellTyped, hVSN, typeOk]
    exact hwt f hf''
  obtain ⟨hlen, hzip⟩ := serializeFields_spec schema stamped hwtAll
  have hbin : serializeFields schema stamped =
      natToBytes t :: natToBytes v :: serializeFields rest stamped := by
    rw [hschema]
    simp [serializeFields, List.filterMap_cons, hTag, hVSN, serializeField]
  have hval : validateParams stamped schema o.excludeKeys = [] := by
    rw [validateParams_nil_iff, List.all_eq_true]
    intro f hf
    have hwf := hwtAll f hf
    cases hlk : List.lookup f.1 stamped with
    | none => simp only [wellTyped, hlk] at hwf; exact absurd hwf (by simp)
    | some w =>
      simp only [wellTyped, hlk] at hwf
      simp [hlk, validateField_of_typeOk w f.2.1 f.2.2 hwf]
  have hfilter : schema.filter (fun f => !o.excludeKeys.contains f.1) = schema := by
    rw [hexcl]; simp
  have hraw : unpackRawTx (serializeFields schema stamped) schema =
      .ok (normalizeParams schema stamped) := by
    unfold unpackRawTx
    rw [if_neg (by simp [hlen])]
    exact congrArg Except.ok hzip
  have hbuild : buildTx reg p t o =
      (.ok { tx := { enc := o.outEncoding, payload := serializeFields schema stamped },
             rlpEncoded := serializeFields schema stamped,
             binary := serializeFields schema stamped,
             txObject := normalizeParams schema stamped }, stamped) := by
    unfold buildTx
    rw [hreg]
    simp only [hvsn, hvv, ← hstamped, hfilter, hval, hraw]
    simp
  rw [hbuild]
  simp only [Except.map]
  rw [hbin]
  unfold unpackTx
  simp only [readInt_natToBytes, hreg, Option.getD_none, ne_eq, not_true_eq_false,
    if_false, hvv]
  rw [← hbin, hraw]
  simp [Except.map, hbin]

/-- Concrete well-typed SpendTx parameter set used as witness input. -/
def cSpendParams : Params :=
  [("senderId", .vEnc .ak [1, 2, 3]), ("recipientId", .vEnc .ak [4, 5, 6]),
   ("amount", .vInt 100), ("fee", .vInt 16660), ("ttl", .vInt 0),
   ("nonce", .vInt 1), ("payload", .vEnc .ba [])]

/-- Witness for C1: the round trip evaluated on a concrete spend
transaction. -/
theorem buildTx_unpackTx_roundTrip_spend :
    ((buildTx TX_SCHEMA cSpendParams Tag.SpendTx {}).1).map
        (fun b => unpackTx TX_SCHEMA b.tx none) =
      .ok (.ok { tx := normalizeParams spendSchema
                   (stampParams cSpendParams Tag.SpendTx 1 "aettos"),
                 rlpEncoded := natToBytes Tag.SpendTx :: natToBytes 1 ::
                   serializeFields (spendSchema.drop 2)
                     (stampParams cSpendParams Tag.SpendTx 1 "aettos") }) :=
  buildTx_unpackTx_roundTrip TX_SCHEMA cSpendParams Tag.SpendTx 1 [(1, spendSchema)]
    (spendSchema.drop 2) {} rfl rfl rfl rfl (by decide)

/-- Truth test for whether an unpack outcome failed with
SchemaNotFoundError. -/
def isSchemaNotFoundOutcome : Except TxError TxUnpackedR → Bool
  | .error (.schemaNotFound _ _ _) => true
  | _ => false

/-- Truth test for whether an unpack outcome failed with DecodeError. -/
def isDecodeErrorOutcome : Except TxError TxUnpackedR → Bool
  | .error (.decodeError _) => true
  | _ => false

/-- C2 (amended).  Tag and version resolution of unpackTx: an unregistered
tag fails with DecodeError, a registered tag with an unregistered version
fails with SchemaNotFoundError, and a registered (tag, version) pair resolves
its schema, leaving only the raw deserialization outcome. -/
theorem unpackTx_tag_version_resolution (reg : Registry) (e : Encoding) (t v : Nat)
    (b0 b1 : Bytes) (rest : List Bytes)
    (ht : readInt b0 = t) (hv : readInt b1 = v) :
    unpackTx reg { enc := e, payload := b0 :: b1 :: rest } none =
      match List.lookup t reg with
      | none => .error (.decodeError ("Unknown transaction tag: " ++ toString t))
      | some schemas =>
        match List.lookup v schemas with
        | none => .error (.schemaNotFound "deserialization" ("tag " ++ toString t) v)
        | some schema =>
          (unpackRawTx (b0 :: b1 :: rest) schema).map
            fun u => { tx := u, rlpEncoded := b0 :: b1 :: rest } := by
  unfold unpackTx
  simp only [ht, hv, Option.getD_none, ne_eq, not_true_eq_false, if_false]

/-- Witness for C2: the resolution trichotomy evaluated against the concrete
registry at an unregistered tag value. -/
theorem unpackTx_tag_version_resolution_inst :
    unpackTx TX_SCHEMA { enc := .tx, payload := [[99], [1]] } none =
      match List.lookup 99 TX_SCHEMA with
      | none => .error (.decodeError ("Unknown transaction tag: " ++ toString 99))
      | some schemas =>
        match List.lookup 1 schemas with
        | none => .error (.schemaNotFound "deserialization" ("tag " ++ toString 99) 1)
        | some schema =>
          (unpackRawTx [[99], [1]] schema).map
            fun u => { tx := u, rlpEncoded := [[99], [1]] } :=
  unpackTx_tag_version_resolution TX_SCHEMA .tx 99 1 [99] [1] [] rfl rfl

/-- Counterexample to C2 as stated: a transaction whose tag 99 is not in the
registry fails with DecodeError, not with SchemaNotFoundError. -/
theorem unpackTx_unknown_tag_decodeError :
    unpackTx TX_SCHEMA { enc := .tx, payload := [[99], [1]] } none =
      .error (.decodeError "Unknown transaction tag: 99") ∧
    isSchemaNotFoundOutcome
      (unpackTx TX_SCHEMA { enc := .tx, payload := [[99], [1]] } none) = false := by
  constructor <;> rfl

/-- C3 (amended).  An element count different from the resolved schema length
makes unpackTx fail with ArgumentError (raised by unpackRawTx), reporting the
expected and actual counts. -/
theorem unpackTx_length_mismatch_argumentError (reg : Registry) (e : Encoding)
    (t v : Nat) (b0 b1 : Bytes) (rest : List Bytes)
    (schemas : List (Nat × List TxField)) (schema : List TxField)
    (ht : readInt b0 = t) (hv : readInt b1 = v)
    (hreg : List.lookup t reg = some schemas)
    (hvv : List.lookup v schemas = some schema)
    (hlen : (b0 :: b1 :: rest).length ≠ schema.length) :
    unpackTx reg { enc := e, payload := b0 :: b1 :: rest } none =
      .error (.argumentError "Transaction RLP length" schema.length
        (b0 :: b1 :: rest).length) := by
  unfold unpackTx
  simp only [ht, hv, hreg, hvv, Option.getD_none, ne_eq, not_true_eq_false, if_false]
  unfold unpackRawTx
  rw [if_pos hlen]
  rfl

/-- Witness for C3: a three-element spend payload against the nine-field
spend schema. -/
theorem unpackTx_length_mismatch_argumentError_inst :
    unpackTx TX_SCHEMA { enc := .tx, payload := [[12], [1], [7]] } none =
      .error (.argumentError "Transaction RLP length" spendSchema.length 3) :=
  unpackTx_length_mismatch_argumentError TX_SCHEMA .tx 12 1 [12] [1] [[7]]
    [(1, spendSchema)] spendSchema rfl rfl rfl rfl (by decide)

/-- Counterexample to C3 as stated: the element-count failure is an
ArgumentError, not a DecodeError. -/
theorem unpackTx_length_mismatch_not_decodeError :
    unpackTx TX_SCHEMA { enc := .tx, payload := [[12], [1], [7]] } none =
      .error (.argumentError "Transaction RLP length" 9 3) ∧
    isDecodeErrorOutcome
      (unpackTx TX_SCHEMA { enc := .tx, payload := [[12], [1], [7]] } none) = false := by
  constructor <;> rfl

/-- Truth test for whether a build outcome failed with
InvalidTxParamsError. -/
def isInvalidTxParamsOutcome : Except TxError BuiltTx → Bool
  | .error (.invalidTxParams _) => true
  | _ => false

/-- C4 (amended).  Required-field validation: validateParams flags exactly
the schema fields outside excludeKeys and outside the seven-name allow-list
(payload, nameFee, deposit, gasPrice, fee, gasLimit, amount) whose value
fails validateField (absent, or a ctVersion without truthy components), and
buildTx raises InvalidTxParamsError exactly when that check is nonempty for
the stamped params. -/
theorem buildTx_invalidTxParams_characterization (reg : Registry) (p : Params)
    (t v : Nat) (o : BuildOpts) (vers : List (Nat × List TxField))
    (schema : List TxField) (q : Params) (sch : List TxField) (ek : List String)
    (hreg : List.lookup t reg = some vers)
    (hvsn : o.vsn.getD (maxKey vers) = v)
    (hvv : List.lookup v vers = some schema) :
    (validateParams q sch ek = [] ↔
      sch.all (fun f => ek.contains f.1 || optionalFields.contains f.1
        || (validateField (List.lookup f.1 q) f.2.1).isNone) = true) ∧
    (isInvalidTxParamsOutcome (buildTx reg p t o).1 = true ↔
      validateParams (stampParams p t v o.denomination) schema o.excludeKeys ≠ []) := by
  refine ⟨validateParams_nil_iff q sch ek, ?_⟩
  unfold buildTx
  rw [hreg]
  simp only [hvsn, hvv]
  by_cases herr :
      validateParams (stampParams p t v o.denomination) schema o.excludeKeys = []
  · simp only [herr, ne_eq, not_true_eq_false, if_false]
    cases hu : unpackRawTx
        (serializeFields (schema.filter fun f => !o.excludeKeys.contains f.1)
          (stampParams p t v o.denomination)) schema with
    | error e =>
      revert hu
      unfold unpackRawTx
      split
      · intro hu
        rw [← hu]
        simp [isInvalidTxParamsOutcome, herr]
      · intro hu
        exact absurd hu (by simp)
    | ok u => simp [hu, isInvalidTxParamsOutcome, herr]
  · rw [if_pos herr]
    simp [isInvalidTxParamsOutcome, herr]

/-- Concrete spend parameter set with the nonce field missing. -/
def cSpendParamsNoNonce : Params :=
  [("senderId", .vEnc .ak [1, 2, 3]), ("recipientId", .vEnc .ak [4, 5, 6]),
   ("amount", .vInt 100), ("fee", .vInt 16660), ("ttl", .vInt 0),
   ("payload", .vEnc .ba [])]

/-- Witness for C4: the characterization evaluated on a spend build whose
nonce is missing. -/
theorem buildTx_invalidTxParams_characterization_inst :
    (validateParams cSpendParamsNoNonce spendSchema [] = [] ↔
      spendSchema.all (fun f => List.contains [] f.1 || optionalFields.contains f.1
        || (validateField (List.lookup f.1 cSpendParamsNoNonce) f.2.1).isNone) = true) ∧
    (isInvalidTxParamsOutcome (buildTx TX_SCHEMA cSpendParamsNoNonce Tag.SpendTx {}).1 = true ↔
      validateParams (stampParams cSpendParamsNoNonce Tag.SpendTx 1 "aettos")
        spendSchema [] ≠ []) :=
  buildTx_invalidTxParams_characterization TX_SCHEMA cSpendParamsNoNonce Tag.SpendTx 1
    {} [(1, spendSchema)] spendSchema cSpendParamsNoNonce spendSchema [] rfl rfl rfl

/-- Counterexample to C4 as stated: an absent gasPrice field raises no
validation error (the allow-list has seven names, not six), while an absent
non-exempt field such as ttl does. -/
theorem validateParams_gasPrice_exempt :
    validateParams [] [("gasPrice", .shortUInt, none)] [] = [] ∧
    validateParams [] [("ttl", .shortUInt, none)] [] = [("ttl", "Field is required")] ∧
    (["fee", "gasLimit", "amount", "deposit", "payload",
      "nameFee"] : List String).contains "gasPrice" = false := by
  refine ⟨rfl, rfl, rfl⟩

/-- C9 (amended).  buildTx mutates the caller's params object in place: after
a call that resolves its schema, the object carries tag, VSN and denomination
stamped in, and every other key is left unchanged. -/
theorem buildTx_stamps_params (reg : Registry) (p : Params) (t v : Nat) (o : BuildOpts)
    (vers : List (Nat × List TxField)) (schema : List TxField) (k : String)
    (hreg : List.lookup t reg = some vers)
    (hvsn : o.vsn.getD (maxKey vers) = v)
    (hvv : List.lookup v vers = some schema)
    (hk1 : k ≠ "VSN") (hk2 : k ≠ "tag") (hk3 : k ≠ "denomination") :
    List.lookup k (buildTx reg p t o).2 = List.lookup k p ∧
    List.lookup "tag" (buildTx reg p t o).2 = some (.vInt t) ∧
    List.lookup "VSN" (buildTx reg p t o).2 = some (.vInt v) ∧
    List.lookup "denomination" (buildTx reg p t o).2 = some (.vStr o.denomination) := by
  obtain ⟨r, hb⟩ : ∃ r, buildTx reg p t o = (r, stampParams p t v o.denomination) := by
    unfold buildTx
    rw [hreg]
    simp only [hvsn, hvv]
    by_cases herr :
        validateParams (stampParams p t v o.denomination) schema o.excludeKeys = []
    · simp only [herr, ne_eq, not_true_eq_false, if_false]
      cases hu : unpackRawTx
          (serializeFields (schema.filter fun f => !o.excludeKeys.contains f.1)
            (stampParams p t v o.denomination)) schema with
      | error e => exact ⟨.error e, rfl⟩
      | ok u => exact ⟨_, rfl⟩
    · rw [if_pos herr]
      exact ⟨_, rfl⟩
  rw [hb]
  refine ⟨?_, ?_, ?_, ?_⟩
  · show List.lookup k (stampParams p t v o.denomination) = List.lookup k p
    unfold stampParams
    rw [lookup_setParam_ne _ _ _ _ hk3, lookup_setParam_ne _ _ _ _ hk2,
      lookup_setParam_ne _ _ _ _ hk1]
  · show List.lookup "tag" (stampParams p t v o.denomination) = some (.vInt t)
    unfold stampParams
    rw [lookup_setParam_ne _ _ _ _ (by decide)]
    exact lookup_setParam_self _ _ _
  · show List.lookup "VSN" (stampParams p t v o.denomination) = some (.vInt v)
    unfold stampParams
    rw [lookup_setParam_ne _ _ _ _ (by decide), lookup_setParam_ne _ _ _ _ (by decide)]
    exact lookup_setParam_self _ _ _
  · exact lookup_setParam_self _ _ _

/-- Witness for C9: the stamping behavior on a concrete spend build, checked
at the untouched key nonce. -/
theorem buildTx_stamps_params_inst :
    List.lookup "nonce" (buildTx TX_SCHEMA cSpendParams Tag.SpendTx {}).2 =
      List.lookup "nonce" cSpendParams ∧
    List.lookup "tag" (buildTx TX_SCHEMA cSpendParams Tag.SpendTx {}).2 =
      some (.vInt Tag.SpendTx) ∧
    List.lookup "VSN" (buildTx TX_SCHEMA cSpendParams Tag.SpendTx {}).2 = some (.vInt 1) ∧
    List.lookup "denomination" (buildTx TX_SCHEMA cSpendParams Tag.SpendTx {}).2 =
      some (.vStr "aettos") :=
  buildTx_stamps_params TX_SCHEMA cSpendParams Tag.SpendTx 1 {} [(1, spendSchema)]
    spendSchema "nonce" rfl rfl rfl (by decide) (by decide) (by decide)

/-- Counterexample to C9 as stated: the caller's params object is not left
unchanged by buildTx. -/
theorem buildTx_mutates_params :
    (buildTx TX_SCHEMA cSpendParams Tag.SpendTx {}).2 ≠ cSpendParams := by decide

/-- C5 (amended).  Signature check: for a signed transaction with a known
sender account, a transaction carrying other than exactly one signature is
skipped; with exactly one signature, the check passes exactly when the
signature verifies against the sender's key over the network-id-prefixed
payload or the prefixed hash of the payload, the prefix gaining the inner_tx
marker under a PayingForTx parent; otherwise it yields the InvalidSignature
finding. -/
theorem signatureValidator_single_signature (vt : ValTx) (o : VOptions) (a : AccountInfo)
    (evw : EncodedTxView) (sigs : List Sig) (s : Sig)
    (ha : o.account = some a) (he : vt.encodedTx = some evw)
    (hs : vt.signatures = some sigs) :
    (sigs.length ≠ 1 → signatureValidator vt o = []) ∧
    (sigs = [s] →
      signatureValidator vt o =
        (if verify (.raw (if o.parentTxTypes.contains Tag.PayingForTx
              then o.nodeNetworkId ++ "-inner_tx" else o.nodeNetworkId) evw.rlpEncoded) s a.id
            || verify (.hashed (if o.parentTxTypes.contains Tag.PayingForTx
              then o.nodeNetworkId ++ "-inner_tx" else o.nodeNetworkId) evw.rlpEncoded) s a.id
          then [] else [invalidSignatureResult])) := by
  unfold signatureValidator
  rw [he, hs, ha]
  simp only [Option.isNone_some, Bool.and_self, Bool.false_and, Bool.and_false,
    Option.getD_some, if_false]
  constructor
  · intro hlen
    match sigs, hlen with
    | [], _ => rfl
    | s1 :: s2 :: rest, _ => rfl
    | [s1], hlen => exact absurd rfl hlen
  · rintro rfl
    rfl

/-- Witness for C5: a concrete singly-signed transaction whose signature was
made over the raw prefixed payload. -/
theorem signatureValidator_single_signature_inst :
    (([{ signedData := SignData.raw "ae_test" [[11], [1]], signer := "ak_w" }] : List Sig).length
        ≠ 1 →
      signatureValidator
        { encodedTx := some { rlpEncoded := [[11], [1]] },
          signatures := some [{ signedData := .raw "ae_test" [[11], [1]], signer := "ak_w" }] }
        { account := some { id := "ak_w", balance := 0, nonce := 0, kind := none },
          nodeNetworkId := "ae_test", parentTxTypes := [], txType := 11, height := 0 } = []) ∧
    (([{ signedData := SignData.raw "ae_test" [[11], [1]], signer := "ak_w" }] : List Sig) =
        [{ signedData := .raw "ae_test" [[11], [1]], signer := "ak_w" }] →
      signatureValidator
        { encodedTx := some { rlpEncoded := [[11], [1]] },
          signatures := some [{ signedData := .raw "ae_test" [[11], [1]], signer := "ak_w" }] }
        { account := some { id := "ak_w", balance := 0, nonce := 0, kind := none },
          nodeNetworkId := "ae_test", parentTxTypes := [], txType := 11, height := 0 } =
        (if verify (.raw (if ([] : List Nat).contains Tag.PayingForTx
              then "ae_test" ++ "-inner_tx" else "ae_test") [[11], [1]])
            { signedData := .raw "ae_test" [[11], [1]], signer := "ak_w" } "ak_w"
            || verify (.hashed (if ([] : List Nat).contains Tag.PayingForTx
              then "ae_test" ++ "-inner_tx" else "ae_test") [[11], [1]])
            { signedData := .raw "ae_test" [[11], [1]], signer := "ak_w" } "ak_w"
          then [] else [invalidSignatureResult])) :=
  signatureValidator_single_signature
    { encodedTx := some { rlpEncoded := [[11], [1]] },
      signatures := some [{ signedData := .raw "ae_test" [[11], [1]], signer := "ak_w" }] }
    { account := some { id := "ak_w", balance := 0, nonce := 0, kind := none },
      nodeNetworkId := "ae_test", parentTxTypes := [], txType := 11, height := 0 }
    { id := "ak_w", balance := 0, nonce := 0, kind := none }
    { rlpEncoded := [[11], [1]] }
    [{ signedData := .raw "ae_test" [[11], [1]], signer := "ak_w" }]
    { signedData := .raw "ae_test" [[11], [1]], signer := "ak_w" }
    rfl rfl rfl

/-- Counterexample to C5 as stated: a signed transaction carrying two
signatures, none of which verifies, produces no InvalidSignature finding
because the check skips any signature count other than one. -/
theorem signatureValidator_skips_two_signatures :
    signatureValidator
      { encodedTx := some { rlpEncoded := [[11], [1]] },
        signatures := some [{ signedData := .raw "x" [], signer := "k1" },
                            { signedData := .raw "x" [], signer := "k2" }] }
      { account := some { id := "ak_w", balance := 0, nonce := 0, kind := none },
        nodeNetworkId := "ae_test", parentTxTypes := [], txType := 11, height := 0 } = [] ∧
    verify (.raw "ae_test" [[11], [1]])
      { signedData := .raw "x" [], signer := "k1" } "ak_w" = false ∧
    verify (.hashed "ae_test" [[11], [1]])
      { signedData := .raw "x" [], signer := "k1" } "ak_w" = false ∧
    verify (.raw "ae_test" [[11], [1]])
      { signedData := .raw "x" [], signer := "k2" } "ak_w" = false ∧
    verify (.hashed "ae_test" [[11], [1]])
      { signedData := .raw "x" [], signer := "k2" } "ak_w" = false := by
  refine ⟨rfl, by decide, by decide, by decide, by decide⟩

/-- C6 (amended).  TTL check: with current height H, a present ttl yields the
ExpiredTTL finding exactly when it is nonzero and strictly below H; a ttl
equal to H yields no finding. -/
theorem ttlValidator_strict_boundary (vt : ValTx) (o : VOptions) (t : Nat)
    (ht : vt.ttl = some t) :
    ttlValidator vt o =
      if t ≠ 0 ∧ t < o.height then
        [{ message := "TTL " ++ toString t ++ " is already expired, current height is "
             ++ toString o.height,
           key := "ExpiredTTL", checkedKeys := ["ttl"] }]
      else [] := by
  by_cases h0 : t = 0
  · subst h0
    simp [ttlValidator, ht]
  · by_cases hh : t < o.height
    · have h1 : ¬t ≥ o.height := by omega
      simp [ttlValidator, ht, h0, hh, h1]
    · have h1 : t ≥ o.height := by omega
      simp [ttlValidator, ht, h0, hh, h1]

/-- Witness for C6: a ttl of 4 at height 6 is flagged as expired. -/
theorem ttlValidator_strict_boundary_inst :
    ttlValidator { ttl := some 4 } { height := 6 } =
      if 4 ≠ 0 ∧ 4 < (6 : Nat) then
        [{ message := "TTL " ++ toString 4 ++ " is already expired, current height is "
             ++ toString 6,
           key := "ExpiredTTL", checkedKeys := ["ttl"] }]
      else [] :=
  ttlValidator_strict_boundary { ttl := some 4 } { height := 6 } 4 rfl

/-- Counterexample to C6 as stated: a nonzero ttl equal to the current height
is at most the height, yet the check produces no finding. -/
theorem ttlValidator_at_height_no_finding :
    ttlValidator { ttl := some 5 } { height := 5 } = [] ∧ (5 : Nat) ≠ 0 ∧ (5 : Nat) ≤ 5 := by
  refine ⟨rfl, by decide, by decide⟩

/-- C7.  Balance check: for a known sender account, cost is
fee + nameFee + amount, plus the wrapped transaction's fee when this is a
PayingForTx, minus the own fee when reached through a PayingForTx wrapper,
and the InsufficientBalance finding reporting exactly that cost appears if
and only if the cost exceeds the balance.  (A PayingForTx always carries its
fee and wrapped transaction, hence the presence hypothesis.) -/
theorem balanceValidator_cost (vt : ValTx) (o : VOptions) (a : AccountInfo)
    (ha : o.account = some a)
    (hpf : o.txType = Tag.PayingForTx → vt.fee.isSome = true ∧ vt.tx.isSome = true) :
    balanceValidator vt o =
      (let cost : Int := vt.fee.getD 0 + vt.nameFee.getD 0 + vt.amount.getD 0
          + (if o.txType == Tag.PayingForTx then innerFee vt else 0)
          - (if o.parentTxTypes.contains Tag.PayingForTx then vt.fee.getD 0 else 0);
       if cost ≤ (a.balance : Int) then []
       else [{ message := "Account balance " ++ toString a.balance
                 ++ " is not enough to execute the transaction that costs " ++ toString cost,
               key := "InsufficientBalance", checkedKeys := ["amount", "fee", "nameFee"] }]) := by
  by_cases hskip : (vt.amount.isNone && vt.fee.isNone && vt.nameFee.isNone) = true
  · have hsk := hskip
    simp only [Bool.and_eq_true, Option.isNone_iff_eq_none] at hsk
    obtain ⟨⟨hA, hF⟩, hN⟩ := hsk
    have hty : (o.txType == Tag.PayingForTx) = false := by
      simp only [beq_eq_false_iff_ne, ne_eq]
      intro hq
      obtain ⟨hfs, _⟩ := hpf hq
      rw [hF] at hfs
      simp at hfs
    simp [balanceValidator, ha, hskip, hA, hF, hN, hty]
  · have hskipf : (vt.amount.isNone && vt.fee.isNone && vt.nameFee.isNone) = false :=
      Bool.eq_false_iff.mpr hskip
    simp only [balanceValidator, ha, hskipf, Bool.false_eq_true, if_false]

/-- Concrete PayingForTx parameters: own fee 10, amount 5, wrapped fee 7. -/
def cPayingForVt : ValTx :=
  { fee := some 10, amount := some 5,
    tx := some { tx := { encodedTx := { tx := { fee := 7 } } } } }

/-- Concrete validator options for the PayingForTx balance witness. -/
def cPayingForOpts : VOptions :=
  { account := some { id := "ak_w", balance := 20, nonce := 0, kind := none },
    nodeNetworkId := "", parentTxTypes := [], txType := Tag.PayingForTx, height := 0 }

/-- Witness for C7: a PayingForTx whose own fee 10, amount 5 and wrapped fee
7 cost 22 against a balance of 20. -/
theorem balanceValidator_cost_inst :
    balanceValidator cPayingForVt cPayingForOpts =
      (let cost : Int := cPayingForVt.fee.getD 0 + cPayingForVt.nameFee.getD 0
          + cPayingForVt.amount.getD 0
          + (if cPayingForOpts.txType == Tag.PayingForTx then innerFee cPayingForVt else 0)
          - (if cPayingForOpts.parentTxTypes.contains Tag.PayingForTx then
              cPayingForVt.fee.getD 0 else 0);
       if cost ≤ ((20 : Nat) : Int) then []
       else [{ message := "Account balance " ++ toString (20 : Nat)
                 ++ " is not enough to execute the transaction that costs " ++ toString cost,
               key := "InsufficientBalance", checkedKeys := ["amount", "fee", "nameFee"] }]) :=
  balanceValidator_cost cPayingForVt cPayingForOpts
    { id := "ak_w", balance := 20, nonce := 0, kind := none }
    rfl (fun _ => ⟨rfl, rfl⟩)

/-- C8.  Nonce check: with a present nonce and a known account, the check is
skipped under a GaMetaTx parent, and otherwise flags NonceAlreadyUsed below
account.nonce + 1, NonceHigh above it, and nothing at exactly that value. -/
theorem nonceValidator_boundaries (vt : ValTx) (o : VOptions) (n : Nat) (a : AccountInfo)
    (hn : vt.nonce = some n) (ha : o.account = some a) :
    nonceValidator vt o =
      if o.parentTxTypes.contains Tag.GaMetaTx then []
      else if n < a.nonce + 1 then
        [{ message := "Nonce " ++ toString n ++ " is already used, valid nonce is "
             ++ toString (a.nonce + 1),
           key := "NonceAlreadyUsed", checkedKeys := ["nonce"] }]
      else if n > a.nonce + 1 then
        [{ message := "Nonce " ++ toString n ++ " is too high, valid nonce is "
             ++ toString (a.nonce + 1),
           key := "NonceHigh", checkedKeys := ["nonce"] }]
      else [] := by
  by_cases hga : o.parentTxTypes.contains Tag.GaMetaTx = true
  · have hmem : Tag.GaMetaTx ∈ o.parentTxTypes := by simpa using hga
    simp [nonceValidator, hn, ha, hmem]
  · have hmem : Tag.GaMetaTx ∉ o.parentTxTypes := by simpa using hga
    rcases Nat.lt_trichotomy n (a.nonce + 1) with hlt | heq | hgt
    · have hne : ¬n = a.nonce + 1 := by omega
      have hngt : ¬a.nonce + 1 < n := by omega
      simp [nonceValidator, hn, ha, hmem, hne, hlt, hngt]
    · subst heq
      simp [nonceValidator, hn, ha, hmem]
    · have hne : ¬n = a.nonce + 1 := by omega
      have hnlt : ¬n < a.nonce + 1 := by omega
      simp [nonceValidator, hn, ha, hmem, hne, hnlt, hgt]

/-- Witness for C8: account nonce 5, incoming nonce 7 (too high). -/
theorem nonceValidator_boundaries_inst :
    nonceValidator { nonce := some 7 }
      { account := some { id := "ak_w", balance := 0, nonce := 5, kind := none } } =
      if ([] : List Nat).contains Tag.GaMetaTx then []
      else if 7 < 5 + 1 then
        [{ message := "Nonce " ++ toString 7 ++ " is already used, valid nonce is "
             ++ toString (5 + 1),
           key := "NonceAlreadyUsed", checkedKeys := ["nonce"] }]
      else if 7 > 5 + 1 then
        [{ message := "Nonce " ++ toString 7 ++ " is too high, valid nonce is "
             ++ toString (5 + 1),
           key := "NonceHigh", checkedKeys := ["nonce"] }]
      else [] :=
  nonceValidator_boundaries { nonce := some 7 }
    { account := some { id := "ak_w", balance := 0, nonce := 5, kind := none } }
    7 { id := "ak_w", balance := 0, nonce := 5, kind := none } rfl rfl

/-- C10.  Missing-account defaults: verifyTransaction turns an
account-not-found failure into the fresh account with balance 0 and nonce 0
(whose valid next nonce is 1), the nonce resolver of _buildTx defaults the
next nonce to 1 on the same failure and keeps a supplied nonce, and every
other lookup failure propagates unchanged in both places. -/
theorem missing_account_defaults (addr msg : String) (a : AccountInfo) (n : Nat) :
    resolveAccount addr (.error .accountNotFound) =
      .ok { id := addr, balance := 0, nonce := 0, kind := none } ∧
    (freshAccount addr).nonce + 1 = 1 ∧
    resolveAccount addr (.ok a) = .ok a ∧
    resolveAccount addr (.error (.other msg)) = .error (.other msg) ∧
    resolveNonce none (.error .accountNotFound) = .ok 1 ∧
    resolveNonce (some n) (.error .accountNotFound) = .ok n ∧
    resolveNonce none (.error (.other msg)) = .error (.other msg) ∧
    resolveNonce none (.ok n) = .ok n := by
  refine ⟨rfl, rfl, rfl, rfl, rfl, rfl, rfl, rfl⟩
